import Mathlib

/-
Verification of the DealHunter backend (server.js): enrichment and ranking
pipeline, cache refresh coordination, and the listings query engine.

The JavaScript source is shallowly embedded: JS numbers are modelled as
rationals, JS integers as Int or Nat, regular-expression searches as
executable scanners over character lists that reproduce the backtracking
behaviour of the concrete patterns appearing in the source, and the
stateful refresh cycle as explicit functions on a cache record plus a
small-step transition system for concurrency claims.
-/

namespace DealHunter

/-! ## Deal score calculator (server.js, calcDealScore) -/

/-- Embedding of calcDealScore: four independent tier contributions
(discount, urgency, no-reserve, low-competition) summed and clamped at 99. -/
def calcDealScore (discountPct : ℤ) (hoursLeft : ℚ) (bidCount : ℕ) (noReserve : Bool) : ℤ :=
  min
    ((if discountPct ≥ 40 then (50 : ℤ)
      else if discountPct ≥ 30 then 42
      else if discountPct ≥ 20 then 32
      else if discountPct ≥ 15 then 22
      else if discountPct ≥ 10 then 12
      else 0)
     + (if hoursLeft ≤ 1 then (20 : ℤ)
        else if hoursLeft ≤ 3 then 15
        else if hoursLeft ≤ 6 then 10
        else if hoursLeft ≤ 12 then 5
        else 0)
     + (if noReserve then (20 : ℤ) else 0)
     + (if bidCount < 5 then (10 : ℤ)
        else if bidCount < 15 then 5
        else 0))
    99

/-- C4: for every integer discountPct, non-negative rational hoursLeft,
bid count and reserve flag, calcDealScore returns an integer in [0, 99]. -/
theorem calcDealScore_in_range (d : ℤ) (h : ℚ) (b : ℕ) (r : Bool) (hh : 0 ≤ h) :
    0 ≤ calcDealScore d h b r ∧ calcDealScore d h b r ≤ 99 := by
  unfold calcDealScore
  refine ⟨?_, ?_⟩ <;> split_ifs <;> decide

/-- Witness for calcDealScore_in_range at a concrete input. -/
theorem calcDealScore_in_range_witness :
    (0 : ℚ) ≤ 2 ∧ (0 ≤ calcDealScore 5 2 3 true ∧ calcDealScore 5 2 3 true ≤ 99) :=
  ⟨by norm_num, calcDealScore_in_range 5 2 3 true (by norm_num)⟩

/-- C5 counterexample: at discountPct 0, hoursLeft 0, bidCount 0, no reserve,
the score is 30 (urgency tier 20 plus low-bid-count bonus 10), not 20. -/
theorem calcDealScore_origin_not_twenty :
    calcDealScore 0 0 0 false = 30 ∧ calcDealScore 0 0 0 false ≠ 20 := by
  norm_num [calcDealScore]

/-- C5 amended: the all-zero input scores 30 because bidCount 0 earns the
low-competition bonus 10 on top of the urgency tier 20; the urgency tier
boundary behaves as claimed: hoursLeft 1 contributes 20 while hoursLeft 1.01
contributes 15 (other tiers silenced by discountPct 0, bidCount 20, reserve). -/
theorem calcDealScore_tier_values :
    calcDealScore 0 0 0 false = 30 ∧
    calcDealScore 0 1 20 false = 20 ∧
    calcDealScore 0 (101/100) 20 false = 15 := by
  refine ⟨?_, ?_, ?_⟩ <;> norm_num [calcDealScore]

/-! ## Character classes and substring scanning

The source uses JavaScript regular expressions; the concrete patterns are
embedded as executable scanners over character lists.  JS dot excludes the
four line terminators, and JS whitespace is the WhiteSpace plus
LineTerminator sets. -/

/-- JS regular-expression whitespace class, as used by the \s escapes. -/
def isJsWs (c : Char) : Bool :=
  decide (c = ' ' ∨ c = '\t' ∨ c = '\n' ∨ c = '\x0b' ∨ c = '\x0c' ∨ c = '\r' ∨
    c = '\u00A0' ∨ c = '\u1680' ∨ ('\u2000' ≤ c ∧ c ≤ '\u200A') ∨ c = '\u2028' ∨
    c = '\u2029' ∨ c = '\u202F' ∨ c = '\u205F' ∨ c = '\u3000' ∨ c = '\uFEFF')

/-- JS line terminators, excluded by the regular-expression dot. -/
def isLineTerm (c : Char) : Bool :=
  decide (c = '\n' ∨ c = '\r' ∨ c = '\u2028' ∨ c = '\u2029')

/-- Class matched by the JS regular-expression dot (no line terminators). -/
def isDotCh (c : Char) : Bool := !(isLineTerm c)

/-- Character class of the make token in the title pattern: A-Z, a-z, hyphen. -/
def isMakeCh (c : Char) : Bool :=
  decide (('A' ≤ c ∧ c ≤ 'Z') ∨ ('a' ≤ c ∧ c ≤ 'z') ∨ c = '-')

/-- Search hay for the first occurrence of needle; on success return the
suffix of hay after that occurrence. -/
def dropSub (needle : List Char) : List Char → Option (List Char)
  | [] => if needle = [] then some [] else none
  | c :: rest =>
    if needle.isPrefixOf (c :: rest) then some ((c :: rest).drop needle.length)
    else dropSub needle rest

/-- Whether needle occurs inside hay (JS String.includes). -/
def hasSub (needle hay : List Char) : Bool := (dropSub needle hay).isSome

/-- Match a sequence of literals separated by unbounded gaps, in order.  This
is the semantics of a JS regular expression l1.*l2.*...*ln within a single
line: taking the leftmost occurrence of each literal in turn is complete
because a later occurrence only shrinks the remaining search space. -/
def matchSeq : List (List Char) → List Char → Bool
  | [], _ => true
  | n :: ns, s =>
    match dropSub n s with
    | some rest => matchSeq ns rest
    | none => false

/-- Split a character list at every line terminator.  A JS dot-star gap can
never cross a line terminator, so an undotted literal pattern matches the
whole string iff it matches inside one of these segments. -/
def splitTerm : List Char → List (List Char)
  | [] => [[]]
  | c :: rest =>
    if isLineTerm c then [] :: splitTerm rest
    else
      match splitTerm rest with
      | [] => [[c]]
      | g :: gs => (c :: g) :: gs

/-- A premium pattern: a disjunction of alternatives, each alternative a list
of literals joined by dot-star gaps.  This is the exact shape of every
regular expression in the premiums table. -/
abbrev Pattern := List (List (List Char))

/-- Test a premium pattern against a string, JS regular-expression test
semantics: some alternative matches within some line segment. -/
def testPat (p : Pattern) (s : List Char) : Bool :=
  (splitTerm s).any (fun seg => p.any (fun alt => matchSeq alt seg))

/-- One alternative built from literal strings. -/
def alt1 (xs : List String) : List (List Char) := xs.map String.data

/-! ## Market value estimator (server.js, estimateMarketValue) -/

/-- JS Math.round: round half up. -/
def jsRound (x : ℚ) : ℤ := ⌊x + 1/2⌋

/-- The ordered premiums table of estimateMarketValue: each entry is the
embedding of the corresponding JS regular expression (alternation binds
weaker than concatenation, so e.g. porsche.*boxster|cayman is the
disjunction of the alternatives porsche.*boxster and cayman). -/
def premiums : List (Pattern × ℚ) :=
  [ ([alt1 ["porsche", "911"]], 2.2),
    ([alt1 ["porsche", "boxster"], alt1 ["cayman"]], 1.4),
    ([alt1 ["bmw", "m3"]], 1.8),
    ([alt1 ["bmw", "m5"]], 1.7),
    ([alt1 ["bmw", "m2"], alt1 ["m4"]], 1.6),
    ([alt1 ["mercedes", "amg"], alt1 ["c63"], alt1 ["e63"], alt1 ["s63"]], 1.7),
    ([alt1 ["honda", "s2000"]], 1.9),
    ([alt1 ["honda", "nsx"], alt1 ["acura", "nsx"]], 2.5),
    ([alt1 ["toyota", "supra"]], 2.4),
    ([alt1 ["toyota", "land cruiser"]], 1.6),
    ([alt1 ["mazda", "rx-7"]], 1.8),
    ([alt1 ["mazda", "miata"], alt1 ["mx-5"]], 1.3),
    ([alt1 ["nissan", "skyline"], alt1 ["gtr"], alt1 ["gt-r"]], 2.2),
    ([alt1 ["nissan", "370z"], alt1 ["350z"]], 1.3),
    ([alt1 ["mitsubishi", "evo"], alt1 ["evolution"]], 1.7),
    ([alt1 ["subaru", "sti"], alt1 ["wrx"]], 1.5),
    ([alt1 ["ford", "mustang", "gt500"], alt1 ["shelby"]], 1.8),
    ([alt1 ["ford", "gt"]], 3.0),
    ([alt1 ["chevrolet", "corvette", "z06"]], 1.6),
    ([alt1 ["chevrolet", "corvette"]], 1.4),
    ([alt1 ["dodge", "viper"]], 1.8),
    ([alt1 ["ferrari"]], 2.0),
    ([alt1 ["lamborghini"]], 2.0),
    ([alt1 ["aston martin"]], 1.8),
    ([alt1 ["mclaren"]], 2.0),
    ([alt1 ["lotus"]], 1.5),
    ([alt1 ["land rover", "defender"]], 1.8),
    ([alt1 ["land rover", "range rover"]], 1.4),
    ([alt1 ["lexus", "lfa"]], 3.0),
    ([alt1 ["lexus", "is-f"], alt1 ["is f"]], 1.4),
    ([alt1 ["audi", "rs"]], 1.6),
    ([alt1 ["volkswagen", "gti"], alt1 ["golf r"]], 1.3),
    ([alt1 ["volkswagen", "r32"]], 1.5) ]

/-- Lowercase a string to a character list (JS toLowerCase on the ASCII
range relevant to the patterns). -/
def lowerStr (s : String) : List Char := s.data.map Char.toLower

/-- The premium scan loop of estimateMarketValue: base starts at the
fallback and is replaced by bid times the multiplier of the first matching
pattern, then the loop breaks. -/
def emvScan (bid fallback : ℚ) : List (Pattern × ℚ) → List Char → ℚ
  | [], _ => fallback
  | pm :: rest, s => if testPat pm.1 s then bid * pm.2 else emvScan bid fallback rest s

/-- Embedding of estimateMarketValue: default base bid times 1.3, first
matching premium replaces it, two age-band multipliers, round to the
nearest 100. -/
def estimateMarketValue (year : ℤ) (make model : String) (currentBid : ℚ) : ℤ :=
  let makeModel := lowerStr (make ++ " " ++ model)
  let base := emvScan currentBid (currentBid * 1.3) premiums makeModel
  let base1 := if year ≥ 1970 ∧ year ≤ 1985 then base * 1.15 else base
  let base2 := if year ≥ 1986 ∧ year ≤ 1995 then base1 * 1.05 else base1
  jsRound (base2 / 100) * 100

/-- Multiplier of the first premium pattern matching the lowercased make
and model string, defaulting to 1.3. -/
def premiumMult (s : List Char) : ℚ :=
  match premiums.find? (fun pm => testPat pm.1 s) with
  | some pm => pm.2
  | none => 1.3

/-- Reference computation of the market value, following the specification
text: scan the fixed ordered table for the first matching pattern, use its
multiplier in place of the default 1.3, apply the mutually exclusive age
bands, round to the nearest 100. -/
def estimateMarketValueRef (year : ℤ) (make model : String) (currentBid : ℚ) : ℤ :=
  let base := currentBid * premiumMult (lowerStr (make ++ " " ++ model))
  let aged :=
    if 1970 ≤ year ∧ year ≤ 1985 then base * 1.15
    else if 1986 ≤ year ∧ year ≤ 1995 then base * 1.05
    else base
  jsRound (aged / 100) * 100

/-- The break-on-first-match loop agrees with a find-first scan. -/
theorem emvScan_eq_find (bid fallback : ℚ) (l : List (Pattern × ℚ)) (s : List Char) :
    emvScan bid fallback l s =
      match l.find? (fun pm => testPat pm.1 s) with
      | some pm => bid * pm.2
      | none => fallback := by
  induction l with
  | nil => rfl
  | cons pm rest ih =>
    by_cases h : testPat pm.1 s
    · simp [emvScan, List.find?, h]
    · simp [emvScan, List.find?, h, ih]

/-- Every multiplier in the premiums table is positive. -/
theorem premiums_pos : ∀ pm ∈ premiums, (0 : ℚ) < pm.2 := by
  intro pm h
  fin_cases h <;> norm_num

/-- The premium multiplier is always positive. -/
theorem premiumMult_pos (s : List Char) : 0 < premiumMult s := by
  unfold premiumMult
  cases hf : premiums.find? (fun pm => testPat pm.1 s) with
  | none => norm_num
  | some pm => exact premiums_pos pm (List.mem_of_find?_eq_some hf)

/-- The break-on-first-match loop computes bid times the premium multiplier. -/
theorem emvScan_premiums (bid : ℚ) (s : List Char) :
    emvScan bid (bid * 1.3) premiums s = bid * premiumMult s := by
  rw [emvScan_eq_find]
  unfold premiumMult
  cases premiums.find? (fun pm => testPat pm.1 s) <;> rfl

/-- Math.round of a non-negative argument is non-negative. -/
theorem jsRound_nonneg (x : ℚ) (hx : 0 ≤ x) : 0 ≤ jsRound x := by
  have h : ((0 : ℤ) : ℚ) ≤ x + 1/2 := by push_cast; linarith
  exact Int.le_floor.mpr h

/-- C6: estimateMarketValue coincides with the reference computation of
the spec (first matching premium multiplier, exclusive age bands, rounding
to the nearest 100), and for a non-negative bid the result is a
non-negative multiple of 100. -/
theorem estimateMarketValue_spec (year : ℤ) (make model : String) (bid : ℚ) :
    estimateMarketValue year make model bid = estimateMarketValueRef year make model bid ∧
    (0 ≤ bid → 0 ≤ estimateMarketValue year make model bid ∧
      (100 : ℤ) ∣ estimateMarketValue year make model bid) := by
  have hage : ∀ b : ℚ,
      (if year ≥ 1986 ∧ year ≤ 1995 then
        (if year ≥ 1970 ∧ year ≤ 1985 then b * 1.15 else b) * 1.05
       else (if year ≥ 1970 ∧ year ≤ 1985 then b * 1.15 else b)) =
      (if 1970 ≤ year ∧ year ≤ 1985 then b * 1.15
       else if 1986 ≤ year ∧ year ≤ 1995 then b * 1.05
       else b) := by
    intro b
    split_ifs <;> first | rfl | omega
  have heq : estimateMarketValue year make model bid = estimateMarketValueRef year make model bid := by
    simp only [estimateMarketValue, estimateMarketValueRef, emvScan_premiums]
    rw [hage]
  refine ⟨heq, fun hb => ?_⟩
  rw [heq]
  have hbase : 0 ≤ bid * premiumMult (lowerStr (make ++ " " ++ model)) :=
    mul_nonneg hb (premiumMult_pos _).le
  constructor
  · simp only [estimateMarketValueRef]
    refine mul_nonneg (jsRound_nonneg _ ?_) (by norm_num)
    refine div_nonneg ?_ (by norm_num)
    split_ifs <;> nlinarith
  · simp only [estimateMarketValueRef]
    exact dvd_mul_left 100 _

/-- Witness for estimateMarketValue_spec at a concrete input. -/
theorem estimateMarketValue_spec_witness :
    (0 : ℚ) ≤ 10000 ∧
    estimateMarketValue 1972 "Porsche" "911" 10000 =
      estimateMarketValueRef 1972 "Porsche" "911" 10000 ∧
    0 ≤ estimateMarketValue 1972 "Porsche" "911" 10000 ∧
    (100 : ℤ) ∣ estimateMarketValue 1972 "Porsche" "911" 10000 :=
  ⟨by norm_num,
   (estimateMarketValue_spec 1972 "Porsche" "911" 10000).1,
   (estimateMarketValue_spec 1972 "Porsche" "911" 10000).2 (by norm_num)⟩

/-! ## Title parser (server.js, parseTitle)

The title pattern is a caret-anchored regular expression
digit-4 ws-plus make-token ws-plus lazy-rest optional-trim-group dollar,
where the make token class is letters and hyphen, the rest is a lazy
one-or-more of dot, and the optional group is ws-star, open paren, a greedy
one-or-more of dot, close paren.  The embedding reproduces the
backtracking order of the JS engine: the whitespace runs are consumed
greedily and given back from the right, the rest grows from one character,
and at each split the parenthesised alternative is tried before the empty
one. -/

/-- Match the optional trailing group ws-star open-paren dot-plus
close-paren followed by end of input, or the empty string at end of input.
Returns some trim when the group matched, some none for the empty
alternative, none when neither applies (the greedy dot-plus inside the
group is forced: it must stop exactly before a close paren that is the
final character). -/
def matchCloseGroup (cs : List Char) : Option (Option (List Char)) :=
  match cs.dropWhile isJsWs with
  | '(' :: r =>
    if r.getLast? = some ')' && r.dropLast.all isDotCh && !r.dropLast.isEmpty then
      some (some r.dropLast)
    else if cs.isEmpty then some none else none
  | _ => if cs.isEmpty then some none else none

/-- The lazy rest group after its first character: find the least number of
further dot characters to consume so that matchCloseGroup succeeds on the
remainder (the engine tries to finish before each extension). -/
def lazyLen : List Char → Option (ℕ × Option (List Char))
  | [] =>
    match matchCloseGroup [] with
    | some t => some (0, t)
    | none => none
  | c :: r =>
    match matchCloseGroup (c :: r) with
    | some t => some (0, t)
    | none =>
      if isDotCh c then
        match lazyLen r with
        | some (n, t) => some (n + 1, t)
        | none => none
      else none

/-- Entry to the lazy rest group: it must consume at least one dot
character, then extends lazily per lazyLen; returns the captured rest and
the optional trim group. -/
def matchTail : List Char → Option (List Char × Option (List Char))
  | [] => none
  | c :: r =>
    if isDotCh c then
      match lazyLen r with
      | some (n, t) => some (c :: r.take n, t)
      | none => none
    else none

/-- Greedy ws-plus followed by the lazy rest: wsRev is the whitespace run
already consumed (reversed); on failure the engine gives characters back
from the right of the run, keeping at least one. -/
def wsThenLazy : List Char → List Char → Option (List Char × Option (List Char))
  | wsRev, tail =>
    match matchTail tail with
    | some r => some r
    | none =>
      match wsRev with
      | [] => none
      | [_] => none
      | c :: rest => wsThenLazy rest (c :: tail)

/-- The four captures of the title pattern. -/
structure TitleMatch where
  yearDigits : List Char
  makeTok : List Char
  restTok : List Char
  trimGrp : Option (List Char)
deriving DecidableEq

/-- The anchored title pattern match.  The year group is exactly four
digits; each ws-plus must be non-empty; the make run cannot be shortened
because its class is disjoint from whitespace. -/
def matchTitle (cs : List Char) : Option TitleMatch :=
  let ds := cs.take 4
  if ds.length = 4 && ds.all Char.isDigit then
    let cs1 := cs.drop 4
    if (cs1.takeWhile isJsWs).isEmpty then none
    else
      let cs2 := cs1.dropWhile isJsWs
      let mk := cs2.takeWhile isMakeCh
      if mk.isEmpty then none
      else
        let cs3 := cs2.dropWhile isMakeCh
        let ws2 := cs3.takeWhile isJsWs
        if ws2.isEmpty then none
        else
          match wsThenLazy ws2.reverse (cs3.dropWhile isJsWs) with
          | some (rest, tg) => some ⟨ds, mk, rest, tg⟩
          | none => none
  else none

/-- JS String.trim: strip whitespace and line terminators on both sides. -/
def jsTrim (cs : List Char) : List Char :=
  ((cs.dropWhile isJsWs).reverse.dropWhile isJsWs).reverse

/-- Split at each whitespace character, keeping group boundaries. -/
def splitEachWs : List Char → List (List Char)
  | [] => [[]]
  | c :: rest =>
    let gs := splitEachWs rest
    if isJsWs c then [] :: gs
    else
      match gs with
      | [] => [[c]]
      | g :: gt => (c :: g) :: gt

/-- JS split on the ws-plus pattern, for input that is already trimmed:
empty input yields one empty field, otherwise the non-empty runs. -/
def splitWsJs (cs : List Char) : List (List Char) :=
  if cs.isEmpty then [[]] else (splitEachWs cs).filter (fun g => !g.isEmpty)

/-- Decimal value of a digit list (JS parseInt on the year capture). -/
def digitsToNat (ds : List Char) : ℕ :=
  ds.foldl (fun a c => a * 10 + (c.toNat - '0'.toNat)) 0

/-- Result shape of parseTitle. -/
structure ParsedTitle where
  year : ℕ
  make : String
  model : String
  trim : String
deriving DecidableEq

/-- Embedding of parseTitle: on a pattern match, the year is the parsed
digit group, the make is the second capture, the model is the first
whitespace-separated word of the trimmed rest, and the trim is the
parenthesised group if it matched, else the remaining words of the rest
joined by single spaces, else empty; on no match, the fallback shape. -/
def parseTitle (title : String) : ParsedTitle :=
  match matchTitle title.data with
  | some m =>
    let parts := splitWsJs (jsTrim m.restTok)
    let subTrim := List.intercalate [' '] (parts.drop 1)
    let trimVal :=
      match m.trimGrp with
      | some t => t
      | none => subTrim
    ⟨digitsToNat m.yearDigits, m.makeTok.asString, (parts.headD []).asString,
      trimVal.asString⟩
  | none => ⟨0, "", title, ""⟩

/-- C8: parseTitle is total (it is a plain function), matches the two
reference examples of the spec, and degrades to the fallback shape
year 0, empty make, whole title as model, empty trim whenever the anchored
title pattern does not match. -/
theorem parseTitle_contract :
    parseTitle "2003 BMW M5 (E39)" = ⟨2003, "BMW", "M5", "E39"⟩ ∧
    parseTitle "not a title" = ⟨0, "", "not a title", ""⟩ ∧
    ∀ t : String, matchTitle t.data = none → parseTitle t = ⟨0, "", t, ""⟩ := by
  refine ⟨by decide, by decide, fun t h => ?_⟩
  simp [parseTitle, h]

/-- Witness for the fallback clause of parseTitle_contract at a concrete
unmatched input. -/
theorem parseTitle_contract_witness :
    matchTitle ("just words".data) = none ∧
    parseTitle "just words" = ⟨0, "", "just words", ""⟩ :=
  ⟨by decide, parseTitle_contract.2.2 "just words" (by decide)⟩

/-! ## Time-left parser (server.js, parseTimeLeft)

The three searches digits ws-star d, digits ws-star h, digits ws-star m are
embedded as leftmost scans.  At a given start position the JS engine
cannot profit from shortening the greedy digit run or the whitespace run
(the following character would again be a digit or whitespace, never the
target letter), so testing the maximal run and maximal whitespace at each
position is exact. -/

/-- Try the pattern digit-plus ws-star x at the current position, returning
the parsed digit run. -/
def numAt (x : Char) (cs : List Char) : Option ℕ :=
  let run := cs.takeWhile Char.isDigit
  if run.isEmpty then none
  else
    match (cs.dropWhile Char.isDigit).dropWhile isJsWs with
    | d :: _ => if d = x then some (digitsToNat run) else none
    | [] => none

/-- Leftmost match of digit-plus ws-star x. -/
def scanNum (x : Char) : List Char → Option ℕ
  | [] => none
  | c :: rest =>
    match numAt x (c :: rest) with
    | some n => some n
    | none => scanNum x rest

/-- Embedding of parseTimeLeft: the day, hour and minute components are
searched independently and summed (days times 24 plus hours plus minutes
over 60); a zero total with an ending or soon marker yields half an hour;
a zero total otherwise, or an empty input, yields the 48-hour default. -/
def parseTimeLeft (text : String) : ℚ :=
  if text = "" then 48
  else
    let t := text.data.map Char.toLower
    let total : ℚ :=
      (match scanNum 'd' t with
       | some n => (n : ℚ) * 24
       | none => 0)
      + (match scanNum 'h' t with
         | some n => (n : ℚ)
         | none => 0)
      + (match scanNum 'm' t with
         | some n => (n : ℚ) / 60
         | none => 0)
    if total = 0 ∧ (hasSub ("ending".data) t || hasSub ("soon".data) t) = true then 1/2
    else if total = 0 then 48
    else total

/-- Try digit-plus h ws-star digit-plus m at the current position. -/
def hmAt (cs : List Char) : Option (ℕ × ℕ) :=
  let run := cs.takeWhile Char.isDigit
  if run.isEmpty then none
  else
    match cs.dropWhile Char.isDigit with
    | 'h' :: a2 =>
      let a3 := a2.dropWhile isJsWs
      let run2 := a3.takeWhile Char.isDigit
      if run2.isEmpty then none
      else
        match a3.dropWhile Char.isDigit with
        | 'm' :: _ => some (digitsToNat run, digitsToNat run2)
        | _ => none
    | _ => none

/-- Leftmost match of the Hh Mm pattern. -/
def scanHM : List Char → Option (ℕ × ℕ)
  | [] => none
  | c :: rest =>
    match hmAt (c :: rest) with
    | some p => some p
    | none => scanHM rest

/-- Try digit-plus colon digit-plus colon digit-plus at the current
position, capturing the first two runs. -/
def colonAt (cs : List Char) : Option (ℕ × ℕ) :=
  let r1 := cs.takeWhile Char.isDigit
  if r1.isEmpty then none
  else
    match cs.dropWhile Char.isDigit with
    | ':' :: a2 =>
      let r2 := a2.takeWhile Char.isDigit
      if r2.isEmpty then none
      else
        match a2.dropWhile Char.isDigit with
        | ':' :: a3 => if (a3.takeWhile Char.isDigit).isEmpty then none else some (digitsToNat r1, digitsToNat r2)
        | _ => none
    | _ => none

/-- Leftmost match of the HH:MM:SS pattern. -/
def scanColon : List Char → Option (ℕ × ℕ)
  | [] => none
  | c :: rest =>
    match colonAt (c :: rest) with
    | some p => some p
    | none => scanColon rest

/-- Modelled from the spec sentence for C9: search the day, hour, Hh Mm,
minutes and HH:MM:SS patterns in exactly that priority order and convert
only the first matching pattern to hours; default 48 when none is found;
an ending or soon marker with no numeric duration yields half an hour. -/
def specTimeLeftFirstMatch (text : String) : ℚ :=
  if text = "" then 48
  else
    let t := text.data.map Char.toLower
    match scanNum 'd' t with
    | some n => (n : ℚ) * 24
    | none =>
      match scanNum 'h' t with
      | some n => (n : ℚ)
      | none =>
        match scanHM t with
        | some p => (p.1 : ℚ) + (p.2 : ℚ) / 60
        | none =>
          match scanNum 'm' t with
          | some n => (n : ℚ) / 60
          | none =>
            match scanColon t with
            | some p => (p.1 : ℚ) + (p.2 : ℚ) / 60
            | none =>
              if (hasSub ("ending".data) t || hasSub ("soon".data) t) = true then 1/2 else 48

/-- C9 counterexample: parseTimeLeft sums the independent day, hour and
minute searches instead of converting only the first matching pattern, and
it has no HH:MM:SS pattern at all: on 2d 4h the code returns 52 where the
claimed first-match rule gives 48, and on 1:30:00 the code falls back to 48
where the claimed rule gives 1.5. -/
theorem parseTimeLeft_priority_cx :
    parseTimeLeft "2d 4h" = 52 ∧ specTimeLeftFirstMatch "2d 4h" = 48 ∧
    parseTimeLeft "1:30:00" = 48 ∧ specTimeLeftFirstMatch "1:30:00" = 3/2 := by
  have hd : scanNum 'd' ("2d 4h".data.map Char.toLower) = some 2 := by decide
  have hhr : scanNum 'h' ("2d 4h".data.map Char.toLower) = some 4 := by decide
  have hm : scanNum 'm' ("2d 4h".data.map Char.toLower) = none := by decide
  have cd : scanNum 'd' ("1:30:00".data.map Char.toLower) = none := by decide
  have chr : scanNum 'h' ("1:30:00".data.map Char.toLower) = none := by decide
  have cm : scanNum 'm' ("1:30:00".data.map Char.toLower) = none := by decide
  have chm : scanHM ("1:30:00".data.map Char.toLower) = none := by decide
  have cc : scanColon ("1:30:00".data.map Char.toLower) = some (1, 30) := by decide
  have cs1 : (hasSub ("ending".data) ("1:30:00".data.map Char.toLower) ||
      hasSub ("soon".data) ("1:30:00".data.map Char.toLower)) = false := by decide
  refine ⟨?_, ?_, ?_, ?_⟩
  · rw [parseTimeLeft, if_neg (by decide)]
    simp only [hd, hhr, hm]
    norm_num
  · rw [specTimeLeftFirstMatch, if_neg (by decide)]
    simp only [hd]
    norm_num
  · rw [parseTimeLeft, if_neg (by decide)]
    simp only [cd, chr, cm, cs1]
    norm_num
  · rw [specTimeLeftFirstMatch, if_neg (by decide)]
    simp only [cd, chr, cm, chm, cc]
    norm_num

/-- A string without digit characters defeats every numeric scan. -/
theorem scanNum_of_no_digit (x : Char) (t : List Char)
    (h : t.all (fun c => !c.isDigit) = true) : scanNum x t = none := by
  induction t with
  | nil => rfl
  | cons c r ih =>
    rw [List.all_cons, Bool.and_eq_true] at h
    have hc : c.isDigit = false := by simpa using h.1
    have hAt : numAt x (c :: r) = none := by
      unfold numAt
      simp [List.takeWhile, hc]
    simp [scanNum, hAt, ih h.2]

/-- C9 amended: parseTimeLeft extracts the first day, hour and minute
matches independently and sums their hour values; a HH:MM:SS string has
none of the three letters and falls back to the 48-hour default; an empty
input defaults to 48; and on inputs containing no digits the result is
half an hour when an ending or soon marker is present and 48 otherwise. -/
theorem parseTimeLeft_sums_components :
    parseTimeLeft "2d 4h" = 52 ∧
    parseTimeLeft "3h 30m" = 7/2 ∧
    parseTimeLeft "45m" = 3/4 ∧
    parseTimeLeft "" = 48 ∧
    parseTimeLeft "1:30:00" = 48 ∧
    (∀ text : String, text ≠ "" →
      ((text.data.map Char.toLower).all (fun c => !c.isDigit)) = true →
      ((hasSub ("ending".data) (text.data.map Char.toLower) ||
        hasSub ("soon".data) (text.data.map Char.toLower)) = true →
          parseTimeLeft text = 1/2) ∧
      ((hasSub ("ending".data) (text.data.map Char.toLower) ||
        hasSub ("soon".data) (text.data.map Char.toLower)) = false →
          parseTimeLeft text = 48)) := by
  have e1 : scanNum 'd' ("2d 4h".data.map Char.toLower) = some 2 := by decide
  have e2 : scanNum 'h' ("2d 4h".data.map Char.toLower) = some 4 := by decide
  have e3 : scanNum 'm' ("2d 4h".data.map Char.toLower) = none := by decide
  have f1 : scanNum 'd' ("3h 30m".data.map Char.toLower) = none := by decide
  have f2 : scanNum 'h' ("3h 30m".data.map Char.toLower) = some 3 := by decide
  have f3 : scanNum 'm' ("3h 30m".data.map Char.toLower) = some 30 := by decide
  have g1 : scanNum 'd' ("45m".data.map Char.toLower) = none := by decide
  have g2 : scanNum 'h' ("45m".data.map Char.toLower) = none := by decide
  have g3 : scanNum 'm' ("45m".data.map Char.toLower) = some 45 := by decide
  have c1 : scanNum 'd' ("1:30:00".data.map Char.toLower) = none := by decide
  have c2 : scanNum 'h' ("1:30:00".data.map Char.toLower) = none := by decide
  have c3 : scanNum 'm' ("1:30:00".data.map Char.toLower) = none := by decide
  have c4 : (hasSub ("ending".data) ("1:30:00".data.map Char.toLower) ||
      hasSub ("soon".data) ("1:30:00".data.map Char.toLower)) = false := by decide
  refine ⟨?_, ?_, ?_, by rw [parseTimeLeft]; norm_num, ?_, ?_⟩
  · rw [parseTimeLeft, if_neg (by decide)]
    simp only [e1, e2, e3]
    norm_num
  · rw [parseTimeLeft, if_neg (by decide)]
    simp only [f1, f2, f3]
    norm_num
  · rw [parseTimeLeft, if_neg (by decide)]
    simp only [g1, g2, g3]
    norm_num
  · rw [parseTimeLeft, if_neg (by decide)]
    simp only [c1, c2, c3, c4]
    norm_num
  · intro text ht hnd
    have s1 : scanNum 'd' (text.data.map Char.toLower) = none := scanNum_of_no_digit _ _ hnd
    have s2 : scanNum 'h' (text.data.map Char.toLower) = none := scanNum_of_no_digit _ _ hnd
    have s3 : scanNum 'm' (text.data.map Char.toLower) = none := scanNum_of_no_digit _ _ hnd
    constructor
    · intro hmark
      rw [parseTimeLeft, if_neg ht]
      simp only [s1, s2, s3, hmark]
      norm_num
    · intro hmark
      rw [parseTimeLeft, if_neg ht]
      simp only [s1, s2, s3, hmark]
      norm_num

/-- Witness for the no-digit clauses of parseTimeLeft_sums_components. -/
theorem parseTimeLeft_sums_components_witness :
    ("Ending soon" : String) ≠ "" ∧
    (("Ending soon".data.map Char.toLower).all (fun c => !c.isDigit)) = true ∧
    (hasSub ("ending".data) ("Ending soon".data.map Char.toLower) ||
      hasSub ("soon".data) ("Ending soon".data.map Char.toLower)) = true ∧
    parseTimeLeft "Ending soon" = 1/2 :=
  ⟨by decide, by decide, by decide,
    (parseTimeLeft_sums_components.2.2.2.2.2 "Ending soon" (by decide) (by decide)).1 (by decide)⟩

/-! ## Listing normaliser and cache (server.js, scrapeCarBids) -/

/-- A raw record extracted from one auction card. -/
structure RawListing where
  title : String
  bid : ℕ
  timeText : String
  bidCount : ℕ
  noReserve : Bool
  location : String
  url : String
  image : String
deriving DecidableEq

/-- The canonical listing produced by the enrichment pipeline.  The
synthetic id cnb-idx-timestamp is modelled by its two components. -/
structure Listing where
  idIdx : ℕ
  idNow : ℕ
  year : ℕ
  make : String
  model : String
  trim : String
  title : String
  currentBid : ℕ
  marketValue : ℤ
  discountPct : ℤ
  dealScore : ℤ
  hoursLeft : ℚ
  bids : ℕ
  noReserve : Bool
  location : String
  url : String
  image : String
  timeText : String
  scrapedAt : ℕ
deriving DecidableEq

/-- Normalisation of one raw record at index idx and timestamp now:
parse the title, parse the time left, estimate the market value, derive
the discount percentage (zero when the market value is not positive) and
the deal score. -/
def normalizeRaw (now idx : ℕ) (raw : RawListing) : Listing :=
  let parsed := parseTitle raw.title
  let hoursLeft := parseTimeLeft raw.timeText
  let marketValue := estimateMarketValue (parsed.year : ℤ) parsed.make parsed.model (raw.bid : ℚ)
  let discountPct : ℤ :=
    if 0 < marketValue then jsRound (((marketValue : ℚ) - (raw.bid : ℚ)) / (marketValue : ℚ) * 100)
    else 0
  let dealScore := calcDealScore discountPct hoursLeft raw.bidCount raw.noReserve
  { idIdx := idx, idNow := now, year := parsed.year, make := parsed.make,
    model := parsed.model, trim := parsed.trim, title := raw.title,
    currentBid := raw.bid, marketValue := marketValue, discountPct := discountPct,
    dealScore := dealScore, hoursLeft := hoursLeft, bids := raw.bidCount,
    noReserve := raw.noReserve,
    location := if raw.location = "" then "United States" else raw.location,
    url := raw.url, image := raw.image, timeText := raw.timeText, scrapedAt := now }

/-- Normalise a whole extraction batch with indices. -/
def normalizeAll (now : ℕ) (raws : List RawListing) : List Listing :=
  raws.enum.map (fun p => normalizeRaw now p.1 p.2)

/-- The in-memory cache (listings, lastScraped, scraping, error). -/
structure Cache where
  listings : List Listing
  lastScraped : Option ℕ
  scraping : Bool
  error : Option String
deriving DecidableEq

/-- The cache at process start. -/
def initialCache : Cache :=
  { listings := [], lastScraped := none, scraping := false, error := none }

/-- Start of a refresh attempt: set the scraping flag, clear the error. -/
def startScrape (c : Cache) : Cache :=
  { c with scraping := true, error := none }

/-- Failed refresh attempt (catch plus finally): record the message, clear
the scraping flag, touch nothing else. -/
def failScrape (c : Cache) (msg : String) : Cache :=
  { c with error := some msg, scraping := false }

/-- Committing refresh attempt (including the zero-cards path, which
commits the empty collection): replace the listings, stamp lastScraped,
clear the scraping flag. -/
def commitScrape (c : Cache) (ls : List Listing) (now : ℕ) : Cache :=
  { c with listings := ls, lastScraped := some now, scraping := false }

/-- One whole scrapeCarBids call as a function of the extraction outcome:
an error, or a pair of the best selector count and the raw records.  A call
arriving while scraping is in progress returns before touching anything.
When the selector count is zero the code commits an empty collection and
returns early; otherwise it commits the normalised batch. -/
def scrapeRun (c : Cache) (now : ℕ) (outcome : Except String (ℕ × List RawListing)) : Cache :=
  if c.scraping then c
  else
    match outcome with
    | Except.error msg => failScrape (startScrape c) msg
    | Except.ok (maxFound, raws) =>
      if maxFound = 0 then commitScrape (startScrape c) [] now
      else commitScrape (startScrape c) (normalizeAll now raws) now

/-! ## Refresh coordination as a transition system

The guard at the top of scrapeCarBids runs atomically in the event loop
(there is no await between the check and the set), so a trigger is a
single step; the awaits inside the try block let other events interleave,
so the finish of an attempt is a separate step.  The active field counts
attempts that have passed the guard and not yet finished. -/

/-- Cache plus number of in-flight refresh attempts. -/
structure SysState where
  cache : Cache
  active : ℕ
deriving DecidableEq

/-- A trigger of scrapeCarBids (scheduled timer, POST scrape and scan
handlers, or a query against a stale cache): a no-op while scraping,
otherwise passes the guard and becomes the single in-flight attempt. -/
def triggerScrape (s : SysState) : SysState :=
  if s.cache.scraping then s else ⟨startScrape s.cache, s.active + 1⟩

/-- The event-loop steps: a trigger, or the completion of an in-flight
attempt (failure or commit with any payload). -/
inductive Step : SysState → SysState → Prop
  | trigger : ∀ s, Step s (triggerScrape s)
  | finishFail : ∀ s msg, 1 ≤ s.active →
      Step s ⟨failScrape s.cache msg, s.active - 1⟩
  | finishCommit : ∀ s ls now, 1 ≤ s.active →
      Step s ⟨commitScrape s.cache ls now, s.active - 1⟩

/-- States reachable from the initial cache with no attempt in flight. -/
inductive Reachable : SysState → Prop
  | init : Reachable ⟨initialCache, 0⟩
  | step : ∀ s t, Reachable s → Step s t → Reachable t

/-- The scraping flag counts the in-flight attempts exactly. -/
theorem reachable_active_eq (s : SysState) (h : Reachable s) :
    s.active = (if s.cache.scraping = true then 1 else 0) := by
  induction h with
  | init => rfl
  | step s1 t h1 hstep ih =>
    cases hstep with
    | trigger =>
      unfold triggerScrape
      by_cases hb : s1.cache.scraping = true
      · simpa [hb] using ih
      · simp only [Bool.not_eq_true] at hb
        simp [hb, startScrape, ih]
    | finishFail msg ha =>
      by_cases hb : s1.cache.scraping = true
      · have hval : s1.active = 1 := by rw [ih, if_pos hb]
        simp [failScrape, hval]
      · rw [ih, if_neg hb] at ha
        omega
    | finishCommit ls now ha =>
      by_cases hb : s1.cache.scraping = true
      · have hval : s1.active = 1 := by rw [ih, if_pos hb]
        simp [commitScrape, hval]
      · rw [ih, if_neg hb] at ha
        omega

/-- C1: refresh is single-flight.  A scrapeCarBids call while the scraping
flag is set returns with the entire cache unchanged for every outcome; a
trigger in any state with the flag set leaves the whole system state
unchanged, starting no second attempt; and every reachable state has at
most one attempt in flight. -/
theorem refresh_single_flight :
    (∀ (c : Cache) (now : ℕ) (o : Except String (ℕ × List RawListing)),
      c.scraping = true → scrapeRun c now o = c) ∧
    (∀ s : SysState, s.cache.scraping = true → triggerScrape s = s) ∧
    (∀ s : SysState, Reachable s → s.active ≤ 1) := by
  refine ⟨fun c now o hc => ?_, fun s hs => ?_, fun s hs => ?_⟩
  · simp [scrapeRun, hc]
  · simp [triggerScrape, hs]
  · rw [reachable_active_eq s hs]
    split <;> omega

/-- A cache mid-refresh with one stale listing, for the witnesses. -/
def busyCache : Cache :=
  { listings := [], lastScraped := some 100, scraping := true, error := none }

/-- Witness for refresh_single_flight at a concrete busy state. -/
theorem refresh_single_flight_witness :
    scrapeRun busyCache 200 (Except.error "net down") = busyCache ∧
    triggerScrape ⟨busyCache, 1⟩ = ⟨busyCache, 1⟩ ∧
    (⟨initialCache, 0⟩ : SysState).active ≤ 1 :=
  ⟨refresh_single_flight.1 busyCache 200 (Except.error "net down") rfl,
   refresh_single_flight.2.1 ⟨busyCache, 1⟩ rfl,
   refresh_single_flight.2.2 ⟨initialCache, 0⟩ Reachable.init⟩

/-- C2: a refresh attempt that fails with an extraction error leaves the
listings collection and the lastScraped stamp exactly as they were,
records the error message, and clears the scraping flag. -/
theorem refresh_failure_atomic (c : Cache) (now : ℕ) (msg : String)
    (h : c.scraping = false) :
    (scrapeRun c now (Except.error msg)).listings = c.listings ∧
    (scrapeRun c now (Except.error msg)).lastScraped = c.lastScraped ∧
    (scrapeRun c now (Except.error msg)).error = some msg ∧
    (scrapeRun c now (Except.error msg)).scraping = false := by
  simp [scrapeRun, h, startScrape, failScrape]

/-- A sample cached listing predating a refresh attempt. -/
def staleListing : Listing :=
  { idIdx := 0, idNow := 50, year := 1995, make := "Porsche", model := "911",
    trim := "Carrera", title := "1995 Porsche 911 Carrera", currentBid := 40000,
    marketValue := 101200, discountPct := 60, dealScore := 80, hoursLeft := 5,
    bids := 12, noReserve := true, location := "United States", url := "",
    image := "", timeText := "5h", scrapedAt := 50 }

/-- An idle cache holding one previously scraped listing. -/
def staleCache : Cache :=
  { listings := [staleListing], lastScraped := some 100, scraping := false,
    error := none }

/-- Witness for refresh_failure_atomic at the stale cache. -/
theorem refresh_failure_atomic_witness :
    (scrapeRun staleCache 200 (Except.error "timeout")).listings = staleCache.listings ∧
    (scrapeRun staleCache 200 (Except.error "timeout")).lastScraped = staleCache.lastScraped ∧
    (scrapeRun staleCache 200 (Except.error "timeout")).error = some "timeout" ∧
    (scrapeRun staleCache 200 (Except.error "timeout")).scraping = false :=
  refresh_failure_atomic staleCache 200 "timeout" rfl

/-- C3 counterexample: when the extraction succeeds with zero matching
cards, the code does not record an error and does not preserve the stale
data: it commits the empty collection, stamps lastScraped with the new
time, and ends with no error recorded, destroying the previous listing. -/
theorem zero_cards_cx :
    (scrapeRun staleCache 200 (Except.ok (0, []))).listings = [] ∧
    (scrapeRun staleCache 200 (Except.ok (0, []))).lastScraped = some 200 ∧
    (scrapeRun staleCache 200 (Except.ok (0, []))).error = none ∧
    staleCache.listings = [staleListing] ∧
    staleCache.lastScraped = some 100 := by
  refine ⟨?_, ?_, ?_, rfl, rfl⟩ <;>
    simp [scrapeRun, staleCache, startScrape, commitScrape]

/-- C3 amended: a refresh that finds zero matching cards is committed as a
successful empty refresh, not treated as a failure: the cache afterwards
has empty listings, lastScraped stamped with the attempt time, no error
recorded and the scraping flag cleared, for every idle starting cache. -/
theorem zero_cards_commits_empty (c : Cache) (now : ℕ) (raws : List RawListing)
    (h : c.scraping = false) :
    scrapeRun c now (Except.ok (0, raws)) =
      { c with listings := [], lastScraped := some now, scraping := false,
               error := none } := by
  simp [scrapeRun, h, startScrape, commitScrape]

/-- Witness for zero_cards_commits_empty at the stale cache. -/
theorem zero_cards_commits_empty_witness :
    scrapeRun staleCache 300 (Except.ok (0, [])) =
      { staleCache with listings := [], lastScraped := some 300,
                        scraping := false, error := none } :=
  zero_cards_commits_empty staleCache 300 [] rfl

/-! ## Query engine (server.js, GET api listings)

The handler reads the query parameters, applies parseFloat to the two
thresholds and the budget, and filters with four guarded clauses.  The
model takes the query already through parseFloat: a parameter value is an
optional rational, none standing for NaN; the budget additionally carries
the JS truthiness of the raw parameter, and the no-reserve flag carries
the string comparison with the literal true. -/

/-- Parsed query parameters of the listings endpoint. -/
structure Query where
  closeHoursN : Option ℚ
  minDiscountN : Option ℚ
  maxBudgetTruthy : Bool
  maxBudgetN : Option ℚ
  noReserveOnlyTrue : Bool
deriving DecidableEq

/-- JS truthiness of a parseFloat result: NaN and zero are falsy. -/
def numTruthy : Option ℚ → Bool
  | none => false
  | some x => decide (x ≠ 0)

/-- JS comparison a greater-than v where v may be NaN (always false). -/
def jsGt (a : ℚ) : Option ℚ → Bool
  | none => false
  | some x => decide (x < a)

/-- JS comparison a less-than v where v may be NaN (always false). -/
def jsLt (a : ℚ) : Option ℚ → Bool
  | none => false
  | some x => decide (a < x)

/-- The filter predicate of the listings endpoint: each clause fires only
when its parameter is truthy. -/
def keepListing (q : Query) (l : Listing) : Bool :=
  if numTruthy q.closeHoursN && jsGt l.hoursLeft q.closeHoursN then false
  else if numTruthy q.minDiscountN && jsLt (l.discountPct : ℚ) q.minDiscountN then false
  else if q.maxBudgetTruthy && jsGt (l.currentBid : ℚ) q.maxBudgetN then false
  else if q.noReserveOnlyTrue && !l.noReserve then false
  else true

/-- The default query: closeHours 24, minDiscount 0, no budget, no
no-reserve restriction. -/
def defaultQuery : Query :=
  { closeHoursN := some 24, minDiscountN := some 0, maxBudgetTruthy := false,
    maxBudgetN := none, noReserveOnlyTrue := false }

/-- The listings endpoint response body: filter the cached listings, then
sort by descending deal score. -/
def apiListings (q : Query) (listings : List Listing) : List Listing :=
  (listings.filter (keepListing q)).mergeSort (fun a b => decide (b.dealScore ≤ a.dealScore))

/-- A listing with a negative discount and small hoursLeft, which the
default query keeps although the claimed unconditional filter predicate
would reject it. -/
def negDiscListing : Listing :=
  { idIdx := 0, idNow := 0, year := 2001, make := "Acme", model := "Z",
    trim := "", title := "2001 Acme Z", currentBid := 5000, marketValue := 4000,
    discountPct := -25, dealScore := 45, hoursLeft := 2, bids := 1,
    noReserve := false, location := "United States", url := "", image := "",
    timeText := "2h", scrapedAt := 0 }

/-- C7 counterexample: under the default query (closeHours 24, minDiscount
0) the endpoint returns a listing whose discountPct is negative, so the
result is not the set of listings satisfying discountPct at least
minDiscount: the minDiscount clause is skipped because parseFloat of 0 is
falsy. -/
theorem listings_filter_cx :
    negDiscListing ∈ apiListings defaultQuery [negDiscListing] ∧
    ¬ ((0 : ℚ) ≤ (negDiscListing.discountPct : ℚ)) := by
  constructor
  · have hk : keepListing defaultQuery negDiscListing = true := by
      simp [keepListing, defaultQuery, numTruthy, jsGt, jsLt, negDiscListing]
      norm_num
    have : negDiscListing ∈ [negDiscListing].filter (keepListing defaultQuery) := by
      simp [hk]
    simpa [apiListings] using
      (List.mergeSort_perm ([negDiscListing].filter (keepListing defaultQuery))
        (fun a b => decide (b.dealScore ≤ a.dealScore))).mem_iff.mpr this
  · norm_num [negDiscListing]

/-- C7 amended: the endpoint result is a permutation of the cached
listings restricted to the guarded filter predicate (each threshold clause
applies only when its parameter is truthy, the budget clause only when the
parameter is provided and truthy, the reserve clause only when the flag is
the literal true), membership is exactly that predicate, and the result is
sorted in non-increasing order of dealScore. -/
theorem listings_filter_sorted (q : Query) (ls : List Listing) :
    (apiListings q ls).Perm (ls.filter (keepListing q)) ∧
    (∀ l, l ∈ apiListings q ls ↔ l ∈ ls ∧
      ((numTruthy q.closeHoursN = true → jsGt l.hoursLeft q.closeHoursN = false) ∧
       (numTruthy q.minDiscountN = true → jsLt (l.discountPct : ℚ) q.minDiscountN = false) ∧
       (q.maxBudgetTruthy = true → jsGt (l.currentBid : ℚ) q.maxBudgetN = false) ∧
       (q.noReserveOnlyTrue = true → l.noReserve = true))) ∧
    (apiListings q ls).Pairwise (fun a b => b.dealScore ≤ a.dealScore) := by
  have hperm : (apiListings q ls).Perm (ls.filter (keepListing q)) :=
    List.mergeSort_perm (ls.filter (keepListing q)) _
  have hkeep : ∀ l, keepListing q l = true ↔
      ((numTruthy q.closeHoursN = true → jsGt l.hoursLeft q.closeHoursN = false) ∧
       (numTruthy q.minDiscountN = true → jsLt (l.discountPct : ℚ) q.minDiscountN = false) ∧
       (q.maxBudgetTruthy = true → jsGt (l.currentBid : ℚ) q.maxBudgetN = false) ∧
       (q.noReserveOnlyTrue = true → l.noReserve = true)) := by
    intro l
    unfold keepListing
    rcases h1 : numTruthy q.closeHoursN <;>
      rcases h2 : jsGt l.hoursLeft q.closeHoursN <;>
        rcases h3 : numTruthy q.minDiscountN <;>
          rcases h4 : jsLt (l.discountPct : ℚ) q.minDiscountN <;>
            rcases h5 : q.maxBudgetTruthy <;>
              rcases h6 : jsGt (l.currentBid : ℚ) q.maxBudgetN <;>
                rcases h7 : q.noReserveOnlyTrue <;>
                  rcases h8 : l.noReserve <;> simp
  refine ⟨hperm, fun l => ?_, ?_⟩
  · rw [hperm.mem_iff, List.mem_filter, hkeep l]
  · have hsorted := @List.sorted_mergeSort Listing
      (fun a b : Listing => decide (b.dealScore ≤ a.dealScore))
      (fun a b c hab hbc => by
        simp only [decide_eq_true_eq] at hab hbc ⊢
        exact le_trans hbc hab)
      (fun a b => by
        simp only [Bool.or_eq_true, decide_eq_true_eq]
        exact le_total b.dealScore a.dealScore)
      (ls.filter (keepListing q))
    refine List.Pairwise.imp ?_ hsorted
    intro a b hab
    simpa using hab

/-- Witness for listings_filter_sorted at a concrete query and cache. -/
theorem listings_filter_sorted_witness :
    (apiListings defaultQuery [negDiscListing]).Perm
      ([negDiscListing].filter (keepListing defaultQuery)) :=
  (listings_filter_sorted defaultQuery [negDiscListing]).1

/-- C10: a threshold clause fires only when its parameter parses to a
truthy number.  When closeHours parses to NaN or 0 the hours clause is
skipped, so the filter result does not depend on hoursLeft at all; and
when minDiscount is the default 0 the discount clause is skipped, so the
filter result does not depend on discountPct, letting listings with
negative discountPct pass. -/
theorem filter_truthiness_guards :
    (∀ (q : Query) (l : Listing) (h1 h2 : ℚ),
      (q.closeHoursN = none ∨ q.closeHoursN = some 0) →
      keepListing q { l with hoursLeft := h1 } = keepListing q { l with hoursLeft := h2 }) ∧
    (∀ (q : Query) (l : Listing) (d1 d2 : ℤ),
      q.minDiscountN = some 0 →
      keepListing q { l with discountPct := d1 } = keepListing q { l with discountPct := d2 }) := by
  constructor
  · intro q l h1 h2 hch
    have hT : numTruthy q.closeHoursN = false := by
      rcases hch with h | h <;> simp [h, numTruthy]
    simp [keepListing, hT]
  · intro q l d1 d2 hmd
    have hT : numTruthy q.minDiscountN = false := by simp [hmd, numTruthy]
    simp [keepListing, hT]

/-- Witness for filter_truthiness_guards: with closeHours parsed to 0 the
hours clause never fires, and with the default minDiscount 0 a listing
with negative discount is kept like one with a large positive discount. -/
theorem filter_truthiness_guards_witness :
    keepListing { defaultQuery with closeHoursN := some 0 }
        { negDiscListing with hoursLeft := 1000 } =
      keepListing { defaultQuery with closeHoursN := some 0 }
        { negDiscListing with hoursLeft := 1 } ∧
    keepListing defaultQuery { negDiscListing with discountPct := -50 } =
      keepListing defaultQuery { negDiscListing with discountPct := 50 } :=
  ⟨filter_truthiness_guards.1 { defaultQuery with closeHoursN := some 0 }
      negDiscListing 1000 1 (Or.inr rfl),
   filter_truthiness_guards.2 defaultQuery negDiscListing (-50) 50 rfl⟩

end DealHunter
